import Mathlib

/-!
Verification of the sync logic of scripts/sync_quest_recordings.py.

The script is embedded shallowly: the external world (adb binary presence,
the output of adb devices, the output of adb shell ls, per-session pull and
delete outcomes, the pre-existing local inventory) is a parameter of the
embedded main, and the effectful loops are modelled as pure folds over the
planned session lists.  Machine strings are Lean Strings (Unicode code
points, matching Python str).
-/

/-- The Unicode decimal-digit (category Nd) code point ranges.  Python re
matches the character class in SESSION_PATTERN (a bare digit class compiled
without the ASCII flag on a str pattern) against every Unicode decimal digit,
not only the ASCII digits. -/
def ndRanges : List (Nat × Nat) :=
  [(0x30, 0x39), (0x660, 0x669), (0x6F0, 0x6F9), (0x7C0, 0x7C9),
   (0x966, 0x96F), (0x9E6, 0x9EF), (0xA66, 0xA6F), (0xAE6, 0xAEF),
   (0xB66, 0xB6F), (0xBE6, 0xBEF), (0xC66, 0xC6F), (0xCE6, 0xCEF),
   (0xD66, 0xD6F), (0xDE6, 0xDEF), (0xE50, 0xE59), (0xED0, 0xED9),
   (0xF20, 0xF29), (0x1040, 0x1049), (0x1090, 0x1099), (0x17E0, 0x17E9),
   (0x1810, 0x1819), (0x1946, 0x194F), (0x19D0, 0x19D9), (0x1A80, 0x1A89),
   (0x1A90, 0x1A99), (0x1B50, 0x1B59), (0x1BB0, 0x1BB9), (0x1C40, 0x1C49),
   (0x1C50, 0x1C59), (0xA620, 0xA629), (0xA8D0, 0xA8D9), (0xA900, 0xA909),
   (0xA9D0, 0xA9D9), (0xA9F0, 0xA9F9), (0xAA50, 0xAA59), (0xABF0, 0xABF9),
   (0xFF10, 0xFF19), (0x104A0, 0x104A9), (0x10D30, 0x10D39),
   (0x11066, 0x1106F), (0x110F0, 0x110F9), (0x11136, 0x1113F),
   (0x111D0, 0x111D9), (0x112F0, 0x112F9), (0x11450, 0x11459),
   (0x114D0, 0x114D9), (0x11650, 0x11659), (0x116C0, 0x116C9),
   (0x11730, 0x11739), (0x118E0, 0x118E9), (0x11950, 0x11959),
   (0x11C50, 0x11C59), (0x11D50, 0x11D59), (0x11DA0, 0x11DA9),
   (0x16A60, 0x16A69), (0x16AC0, 0x16AC9), (0x16B50, 0x16B59),
   (0x1D7CE, 0x1D7FF), (0x1E140, 0x1E149), (0x1E2F0, 0x1E2F9),
   (0x1E950, 0x1E959), (0x1FBF0, 0x1FBF9)]

/-- Python's digit class on a str pattern: any Unicode decimal digit. -/
def isPyDigit (c : Char) : Bool :=
  ndRanges.any (fun r => r.1 ≤ c.toNat && c.toNat ≤ r.2)

/-- Code points stripped by Python str.strip() (characters whose isspace()
is true). -/
def spaceRanges : List (Nat × Nat) :=
  [(0x9, 0xD), (0x1C, 0x1F), (0x20, 0x20), (0x85, 0x85), (0xA0, 0xA0),
   (0x1680, 0x1680), (0x2000, 0x200A), (0x2028, 0x2029), (0x202F, 0x202F),
   (0x205F, 0x205F), (0x3000, 0x3000)]

/-- Python's str.isspace() per character. -/
def isPySpace (c : Char) : Bool :=
  spaceRanges.any (fun r => r.1 ≤ c.toNat && c.toNat ≤ r.2)

/-- Python str.strip(): drop leading and trailing whitespace. -/
def pyStrip (s : String) : String :=
  ⟨((s.data.dropWhile isPySpace).reverse.dropWhile isPySpace).reverse⟩

/-- Helper for pySplit: scan characters, accumulating the current word
(reversed). -/
def pySplitAux : List Char → List Char → List String
  | [], acc => if acc = [] then [] else [⟨acc.reverse⟩]
  | c :: cs, acc =>
    if isPySpace c then
      if acc = [] then pySplitAux cs [] else ⟨acc.reverse⟩ :: pySplitAux cs []
    else pySplitAux cs (c :: acc)

/-- Python str.split() with no separator: split on runs of whitespace,
discarding empty pieces. -/
def pySplit (s : String) : List String :=
  pySplitAux s.data []

/-- Python str.replace of the carriage-return character by the empty
string: remove every carriage return. -/
def removeCarriageReturns (s : String) : String :=
  ⟨s.data.filter (fun c => !(c == '\r'))⟩

/-- Lexicographic comparison of code-point sequences, the order Python uses
to compare and sort str values. -/
def strLeB : List Char → List Char → Bool
  | [], _ => true
  | _ :: _, [] => false
  | a :: as, b :: bs =>
    if a.toNat < b.toNat then true
    else if b.toNat < a.toNat then false
    else strLeB as bs

/-- Python's total order on str, as a proposition. -/
def sLe (a b : String) : Prop := strLeB a.data b.data = true

instance : DecidableRel sLe := fun a b => by unfold sLe; infer_instance

/-- Anchored matcher for a run of exactly n digits: consume n digit
characters and return the rest of the input. -/
def matchRepeatDigits : Nat → List Char → Option (List Char)
  | 0, cs => some cs
  | n + 1, c :: cs => if isPyDigit c then matchRepeatDigits n cs else none
  | _ + 1, [] => none

/-- SESSION_PATTERN.fullmatch: the whole string is eight digits, an
underscore, then six digits (digit meaning Python's digit class). -/
def SESSION_PATTERN_fullmatch (s : String) : Bool :=
  match matchRepeatDigits 8 s.data with
  | none => false
  | some rest =>
    match rest with
    | c :: rest2 =>
      if c = '_' then
        match matchRepeatDigits 6 rest2 with
        | some [] => true
        | _ => false
      else false
    | [] => false

/-- Outcome of the external adb pull command for one session: the process
exit code and whether local_dir/session exists as a directory afterwards. -/
structure PullRes where
  returncode : Int
  localSessionDirCreated : Bool

/-- pull_session: in dry-run mode report success without doing anything;
otherwise succeed only when adb pull exited with status zero and the
expected local session directory was actually created. -/
def pull_session (dry_run : Bool) (r : PullRes) : Bool :=
  if dry_run then true
  else if r.returncode ≠ 0 then false
  else if r.localSessionDirCreated = false then false
  else true

/-- delete_session: in dry-run mode report success without doing anything;
otherwise success is exactly the adb shell rm command exiting with status
zero (modelled by the Boolean outcome). -/
def delete_session (dry_run : Bool) (rmExitZero : Bool) : Bool :=
  if dry_run then true
  else rmExitZero

/-- Parse the output lines of adb devices: skip the header line, strip each
line, skip blanks, split on whitespace, require at least serial and state,
and classify the serial by state into (connected, unauthorized) in listing
order.  Other states are ignored. -/
def parseDeviceLines (outputLines : List String) : List String × List String :=
  (outputLines.drop 1).foldl
    (fun acc line =>
      let l := pyStrip line
      if l.data = [] then acc
      else
        match pySplit l with
        | serial :: state :: _ =>
          if state = "device" then (acc.1 ++ [serial], acc.2)
          else if state = "unauthorized" then (acc.1, acc.2 ++ [serial])
          else acc
        | _ => acc)
    ([], [])

/-- ensure_device_connected: devicesCmdOk models whether the adb devices
command itself succeeded (run_checked raises otherwise); then classify the
parsed device lines, failing when no device is connected, with a dedicated
message when devices are present but all unauthorized, and otherwise
returning the first connected serial. -/
def ensure_device_connected (devicesCmdOk : Bool) (outputLines : List String) :
    Except String String :=
  if devicesCmdOk = false then
    Except.error "Command failed: adb devices"
  else
    let p := parseDeviceLines outputLines
    if !p.2.isEmpty && p.1.isEmpty then
      Except.error "Quest is connected but unauthorized. Put on the headset and allow USB debugging."
    else
      match p.1 with
      | [] => Except.error "No ADB device detected."
      | c :: _ => Except.ok c

/-- Per-line normalization in list_device_sessions: strip, then remove
carriage returns. -/
def normalizeLine (raw : String) : String :=
  removeCarriageReturns (pyStrip raw)

/-- list_device_sessions: normalize each output line of the remote listing,
keep those that fullmatch SESSION_PATTERN, and return them sorted
ascending. -/
def list_device_sessions (outputLines : List String) : List String :=
  List.insertionSort sLe ((outputLines.map normalizeLine).filter SESSION_PATTERN_fullmatch)

/-- new_sessions in main: remote sessions not already local, in remote
enumeration order (duplicates kept). -/
def newSessions (device_sessions : List String) (local_before : Finset String) :
    List String :=
  device_sessions.filter (fun s => decide (s ∉ local_before))

/-- old_sessions in main: remote sessions already local, in remote
enumeration order. -/
def oldSessions (device_sessions : List String) (local_before : Finset String) :
    List String :=
  device_sessions.filter (fun s => decide (s ∈ local_before))

/-- Helper for dictFromKeys: keep each element the first time it is seen. -/
def dictFromKeysAux (seen : List String) : List String → List String
  | [] => []
  | a :: l =>
    if a ∈ seen then dictFromKeysAux seen l
    else a :: dictFromKeysAux (a :: seen) l

/-- Python list(dict.fromkeys(l)): deduplicate keeping the first occurrence
of each element, preserving first-seen order. -/
def dictFromKeys (l : List String) : List String :=
  dictFromKeysAux [] l

/-- The delete-candidate computation of main: empty when --no-delete,
old_sessions when --delete-old-only, otherwise the first-seen
deduplication of old_sessions followed by the successfully pulled
sessions. -/
def plan_delete_candidates (no_delete delete_old_only : Bool)
    (old_sessions pulled_ok : List String) : List String :=
  if no_delete then []
  else if delete_old_only then old_sessions
  else dictFromKeys (old_sessions ++ pulled_ok)

/-- The per-session loop of main: invoke the outcome for each session in
order and classify it into the success list or the failure list (both in
processing order). -/
def classifySessions (outcome : String → Bool) : List String → List String × List String
  | [] => ([], [])
  | s :: rest =>
    let r := classifySessions outcome rest
    if outcome s then (s :: r.1, r.2) else (r.1, s :: r.2)

/-- The command-line flags that affect the sync logic. -/
structure Args where
  dry_run : Bool
  no_delete : Bool
  delete_old_only : Bool

/-- The external world of one run: adb presence, the adb devices command
outcome and output lines, the remote listing command outcome and output
lines, the local inventory snapshot, and the per-session outcomes of the
pull and delete commands. -/
structure Env where
  adbOnPath : Bool
  devicesCmdOk : Bool
  devicesLines : List String
  lsCmdOk : Bool
  lsLines : List String
  localBefore : Finset String
  pullRes : String → PullRes
  rmExitZero : String → Bool

/-- Observable external operations of a run, in invocation order. -/
inductive Event where
  | listRemote : Event
  | pull : String → Event
  | delete : String → Event
deriving DecidableEq

/-- The observable result of a run of main: the process exit code, the
trace of external operations, and the session lists main computes. -/
structure RunOutcome where
  exitCode : Nat
  events : List Event
  new_sessions : List String
  old_sessions : List String
  pulled_ok : List String
  pull_failed : List String
  delete_candidates : List String
  deleted_ok : List String
  delete_failed : List String

/-- A run that ended before planning: every session list is empty. -/
def emptyOutcome (exitCode : Nat) (events : List Event) : RunOutcome :=
  ⟨exitCode, events, [], [], [], [], [], [], []⟩

namespace SyncScript

/-- The body of main past the early returns: the new/old split of the
remote snapshot, the per-session pull loop, the delete-candidate plan, the
per-session delete loop, and the exit status (1 when any pull or delete
failed). -/
def runBody (args : Args) (env : Env) : RunOutcome :=
  let device_sessions := list_device_sessions env.lsLines
  let new_s := newSessions device_sessions env.localBefore
  let old_s := oldSessions device_sessions env.localBefore
  let pr := classifySessions (fun s => pull_session args.dry_run (env.pullRes s)) new_s
  let cands := plan_delete_candidates args.no_delete args.delete_old_only old_s pr.1
  let dr := classifySessions (fun s => delete_session args.dry_run (env.rmExitZero s)) cands
  { exitCode := if !pr.2.isEmpty || !dr.2.isEmpty then 1 else 0
    events := Event.listRemote :: (new_s.map Event.pull ++ cands.map Event.delete)
    new_sessions := new_s
    old_sessions := old_s
    pulled_ok := pr.1
    pull_failed := pr.2
    delete_candidates := cands
    deleted_ok := dr.1
    delete_failed := dr.2 }

/-- The embedded main: preflight checks (adb on PATH, device connected and
authorized), remote listing, early success on an empty listing, then
runBody. -/
def main (args : Args) (env : Env) : RunOutcome :=
  if env.adbOnPath = false then emptyOutcome 1 []
  else
    match ensure_device_connected env.devicesCmdOk env.devicesLines with
    | Except.error _ => emptyOutcome 1 []
    | Except.ok _serial =>
      if env.lsCmdOk = false then emptyOutcome 1 [Event.listRemote]
      else
        if (list_device_sessions env.lsLines).isEmpty then emptyOutcome 0 [Event.listRemote]
        else runBody args env

end SyncScript

open SyncScript

/-- A fully successful single-session run environment: adb present, one
authorized device, one remote session, empty local inventory, every
external command succeeding. -/
def envHappy : Env :=
  { adbOnPath := true
    devicesCmdOk := true
    devicesLines := ["List of devices attached", "X\tdevice"]
    lsCmdOk := true
    lsLines := ["20240101_100000"]
    localBefore := ∅
    pullRes := fun _ => ⟨0, true⟩
    rmExitZero := fun _ => true }

/-- envHappy with the remote listing reporting the same session on two
lines. -/
def envDup : Env :=
  { envHappy with lsLines := ["20240101_100000", "20240101_100000"] }

/-- envHappy with two remote sessions of which only the later one is
already local. -/
def envMixed : Env :=
  { envHappy with
    lsLines := ["20240102_000000", "20240101_000000"]
    localBefore := {"20240102_000000"} }

/-- envHappy with adb missing from PATH. -/
def envNoAdb : Env :=
  { envHappy with adbOnPath := false }

/-- A fifteen-character string of Arabic-Indic digits around an underscore:
every Python Unicode decimal digit matches the digit class of
SESSION_PATTERN. -/
def arabicSession : String :=
  ⟨List.replicate 8 (Char.ofNat 1632) ++ '_' :: List.replicate 6 (Char.ofNat 1632)⟩

/-! Helper lemmas about the string order used for sorting. -/

theorem strLeB_cons_iff (a b : Char) (as bs : List Char) :
    strLeB (a :: as) (b :: bs) = true ↔
      a.toNat < b.toNat ∨ (a.toNat = b.toNat ∧ strLeB as bs = true) := by
  simp only [strLeB]
  by_cases hab : a.toNat < b.toNat <;> by_cases hba : b.toNat < a.toNat <;>
    simp [hab, hba] <;> omega

theorem strLeB_total (x y : List Char) : strLeB x y = true ∨ strLeB y x = true := by
  induction x generalizing y with
  | nil => left; rfl
  | cons a as ih =>
    cases y with
    | nil => right; rfl
    | cons b bs =>
      rcases Nat.lt_trichotomy a.toNat b.toNat with h | h | h
      · left; rw [strLeB_cons_iff]; exact Or.inl h
      · rcases ih bs with h2 | h2
        · left; rw [strLeB_cons_iff]; exact Or.inr ⟨h, h2⟩
        · right; rw [strLeB_cons_iff]; exact Or.inr ⟨h.symm, h2⟩
      · right; rw [strLeB_cons_iff]; exact Or.inl h

theorem strLeB_trans (x y z : List Char) (h1 : strLeB x y = true)
    (h2 : strLeB y z = true) : strLeB x z = true := by
  induction x generalizing y z with
  | nil => rfl
  | cons a as ih =>
    cases y with
    | nil => simp [strLeB] at h1
    | cons b bs =>
      cases z with
      | nil => simp [strLeB] at h2
      | cons c cs =>
        rw [strLeB_cons_iff] at h1 h2 ⊢
        rcases h1 with h1 | ⟨h1e, h1r⟩ <;> rcases h2 with h2 | ⟨h2e, h2r⟩
        · left; omega
        · left; omega
        · left; omega
        · right; exact ⟨by omega, ih bs cs h1r h2r⟩

theorem sLe_total_thm (a b : String) : sLe a b ∨ sLe b a :=
  strLeB_total a.data b.data

theorem sLe_trans_thm (a b c : String) (h1 : sLe a b) (h2 : sLe b c) : sLe a c :=
  strLeB_trans a.data b.data c.data h1 h2

/-! Helper lemmas about the per-session classification loop. -/

theorem classifySessions_fst (outcome : String → Bool) (l : List String) :
    (classifySessions outcome l).1 = l.filter outcome := by
  induction l with
  | nil => rfl
  | cons s rest ih =>
    simp only [classifySessions, List.filter]
    cases h : outcome s <;> simp [h, ih]

theorem classifySessions_snd (outcome : String → Bool) (l : List String) :
    (classifySessions outcome l).2 = l.filter (fun s => !(outcome s)) := by
  induction l with
  | nil => rfl
  | cons s rest ih =>
    simp only [classifySessions, List.filter]
    cases h : outcome s <;> simp [h, ih]

/-! Helper lemmas about first-seen deduplication. -/

theorem mem_dictFromKeysAux (seen l : List String) (s : String) :
    s ∈ dictFromKeysAux seen l ↔ s ∈ l ∧ s ∉ seen := by
  induction l generalizing seen with
  | nil => simp [dictFromKeysAux]
  | cons a rest ih =>
    simp only [dictFromKeysAux]
    by_cases ha : a ∈ seen
    · rw [if_pos ha, ih]
      constructor
      · rintro ⟨hs, hns⟩; exact ⟨List.mem_cons_of_mem _ hs, hns⟩
      · rintro ⟨hs, hns⟩
        rcases List.mem_cons.mp hs with rfl | hs
        · exact absurd ha hns
        · exact ⟨hs, hns⟩
    · rw [if_neg ha]
      simp only [List.mem_cons, ih, List.mem_cons]
      constructor
      · rintro (rfl | ⟨hs, hns⟩)
        · exact ⟨Or.inl rfl, ha⟩
        · exact ⟨Or.inr hs, fun hm => hns (Or.inr hm)⟩
      · rintro ⟨rfl | hs, hns⟩
        · exact Or.inl rfl
        · by_cases hsa : s = a
          · exact Or.inl hsa
          · refine Or.inr ⟨hs, ?_⟩
            rintro (h | h)
            · exact hsa h
            · exact hns h

theorem nodup_dictFromKeysAux (seen l : List String) :
    (dictFromKeysAux seen l).Nodup := by
  induction l generalizing seen with
  | nil => exact List.nodup_nil
  | cons a rest ih =>
    simp only [dictFromKeysAux]
    by_cases ha : a ∈ seen
    · rw [if_pos ha]; exact ih seen
    · rw [if_neg ha]
      refine List.nodup_cons.mpr ⟨fun hm => ?_, ih (a :: seen)⟩
      exact ((mem_dictFromKeysAux _ _ _).mp hm).2 (List.mem_cons_self a seen)

theorem sublist_dictFromKeysAux (seen l : List String) :
    List.Sublist (dictFromKeysAux seen l) l := by
  induction l generalizing seen with
  | nil => exact List.Sublist.refl []
  | cons a rest ih =>
    simp only [dictFromKeysAux]
    by_cases ha : a ∈ seen
    · rw [if_pos ha]; exact List.Sublist.cons a (ih seen)
    · rw [if_neg ha]; exact List.Sublist.cons₂ a (ih (a :: seen))

theorem dictFromKeysAux_congr (seen1 seen2 l : List String)
    (h : ∀ s, s ∈ seen1 ↔ s ∈ seen2) :
    dictFromKeysAux seen1 l = dictFromKeysAux seen2 l := by
  induction l generalizing seen1 seen2 with
  | nil => rfl
  | cons a rest ih =>
    simp only [dictFromKeysAux]
    by_cases ha : a ∈ seen1
    · rw [if_pos ha, if_pos ((h a).mp ha)]
      exact ih seen1 seen2 h
    · rw [if_neg ha, if_neg (fun hm => ha ((h a).mpr hm))]
      refine congrArg _ (ih _ _ fun s => ?_)
      simp only [List.mem_cons, h s]

theorem dictFromKeysAux_append (seen x y : List String) :
    dictFromKeysAux seen (x ++ y) =
      dictFromKeysAux seen x ++ dictFromKeysAux (x ++ seen) y := by
  induction x generalizing seen with
  | nil => rfl
  | cons a rest ih =>
    simp only [List.cons_append, dictFromKeysAux, List.append_eq]
    by_cases ha : a ∈ seen
    · rw [if_pos ha, if_pos ha, ih seen]
      refine congrArg _ (dictFromKeysAux_congr _ _ _ fun s => ?_)
      simp only [List.mem_append, List.mem_cons]
      constructor
      · exact fun h => Or.inr h
      · rintro (rfl | h)
        · exact Or.inr ha
        · exact h
    · rw [if_neg ha, if_neg ha, ih (a :: seen)]
      refine congrArg _ (congrArg _ (dictFromKeysAux_congr _ _ _ fun s => ?_))
      simp only [List.mem_append, List.mem_cons]
      tauto

theorem mem_dictFromKeys (l : List String) (s : String) :
    s ∈ dictFromKeys l ↔ s ∈ l := by
  rw [dictFromKeys, mem_dictFromKeysAux]
  simp

theorem nodup_dictFromKeys (l : List String) : (dictFromKeys l).Nodup :=
  nodup_dictFromKeysAux [] l

/-! Characterization of the anchored digit-run matcher. -/

theorem matchRepeatDigits_eq_some (n : Nat) (cs rest : List Char) :
    matchRepeatDigits n cs = some rest ↔
      ∃ a : List Char, cs = a ++ rest ∧ a.length = n ∧ ∀ c ∈ a, isPyDigit c = true := by
  induction n generalizing cs with
  | zero =>
    simp only [matchRepeatDigits, Option.some.injEq]
    constructor
    · rintro rfl; exact ⟨[], rfl, rfl, by simp⟩
    · rintro ⟨a, rfl, ha, _⟩
      rw [List.length_eq_zero.mp ha]
      rfl
  | succ n ih =>
    cases cs with
    | nil =>
      simp only [matchRepeatDigits]
      constructor
      · intro h; exact absurd h (by simp)
      · rintro ⟨a, h, ha, _⟩
        exfalso
        have := congrArg List.length h
        simp [ha] at this
        omega
    | cons c cs2 =>
      simp only [matchRepeatDigits]
      by_cases hc : isPyDigit c
      · rw [if_pos hc, ih]
        constructor
        · rintro ⟨a, rfl, ha, hd⟩
          refine ⟨c :: a, rfl, by simp [ha], ?_⟩
          intro x hx
          rcases List.mem_cons.mp hx with rfl | hx
          · exact hc
          · exact hd x hx
        · rintro ⟨a, h, ha, hd⟩
          cases a with
          | nil => simp at ha
          | cons a0 a1 =>
            obtain ⟨rfl, h2⟩ : c = a0 ∧ cs2 = a1 ++ rest := by
              constructor <;> [exact (List.cons.injEq _ _ _ _ ▸ h).1; exact (List.cons.injEq _ _ _ _ ▸ h).2]
            exact ⟨a1, h2, by simpa using ha, fun x hx => hd x (List.mem_cons_of_mem _ hx)⟩
      · rw [if_neg hc]
        constructor
        · intro h; exact absurd h (by simp)
        · rintro ⟨a, h, ha, hd⟩
          exfalso
          cases a with
          | nil => simp at ha
          | cons a0 a1 =>
            have : c = a0 := (List.cons.injEq _ _ _ _ ▸ h).1
            exact hc (this ▸ hd a0 (List.mem_cons_self _ _))

/-! Structure lemmas for the embedded main. -/

theorem main_noAdb (args : Args) (env : Env) (h : env.adbOnPath = false) :
    main args env = emptyOutcome 1 [] := by
  simp [main, h]

theorem main_deviceError (args : Args) (env : Env) (m : String)
    (h2 : ensure_device_connected env.devicesCmdOk env.devicesLines = Except.error m) :
    main args env = emptyOutcome 1 [] := by
  by_cases h1 : env.adbOnPath = false
  · simp [main, h1]
  · rw [Bool.not_eq_false] at h1
    simp [main, h1, h2]

theorem main_lsError (args : Args) (env : Env) (serial : String)
    (h1 : env.adbOnPath = true)
    (h2 : ensure_device_connected env.devicesCmdOk env.devicesLines = Except.ok serial)
    (h3 : env.lsCmdOk = false) :
    main args env = emptyOutcome 1 [Event.listRemote] := by
  simp [main, h1, h2, h3]

theorem main_emptyListing (args : Args) (env : Env) (serial : String)
    (h1 : env.adbOnPath = true)
    (h2 : ensure_device_connected env.devicesCmdOk env.devicesLines = Except.ok serial)
    (h3 : env.lsCmdOk = true)
    (h4 : (list_device_sessions env.lsLines).isEmpty = true) :
    main args env = emptyOutcome 0 [Event.listRemote] := by
  simp [main, h1, h2, h3, h4]

theorem main_runBody (args : Args) (env : Env) (serial : String)
    (h1 : env.adbOnPath = true)
    (h2 : ensure_device_connected env.devicesCmdOk env.devicesLines = Except.ok serial)
    (h3 : env.lsCmdOk = true)
    (h4 : (list_device_sessions env.lsLines).isEmpty = false) :
    main args env = runBody args env := by
  simp [main, h1, h2, h3, h4]

theorem main_cases (args : Args) (env : Env) :
    main args env = emptyOutcome 1 [] ∨
    main args env = emptyOutcome 1 [Event.listRemote] ∨
    main args env = emptyOutcome 0 [Event.listRemote] ∨
    main args env = runBody args env := by
  by_cases h1 : env.adbOnPath = false
  · exact Or.inl (main_noAdb args env h1)
  · rw [Bool.not_eq_false] at h1
    cases h2 : ensure_device_connected env.devicesCmdOk env.devicesLines with
    | error m => exact Or.inl (main_deviceError args env m h2)
    | ok serial =>
      by_cases h3 : env.lsCmdOk = false
      · exact Or.inr (Or.inl (main_lsError args env serial h1 h2 h3))
      · rw [Bool.not_eq_false] at h3
        cases h4 : (list_device_sessions env.lsLines).isEmpty with
        | true => exact Or.inr (Or.inr (Or.inl (main_emptyListing args env serial h1 h2 h3 h4)))
        | false => exact Or.inr (Or.inr (Or.inr (main_runBody args env serial h1 h2 h3 h4)))

/-! Field lemmas for runBody. -/

theorem runBody_new_sessions (args : Args) (env : Env) :
    (runBody args env).new_sessions =
      newSessions (list_device_sessions env.lsLines) env.localBefore := rfl

theorem runBody_old_sessions (args : Args) (env : Env) :
    (runBody args env).old_sessions =
      oldSessions (list_device_sessions env.lsLines) env.localBefore := rfl

theorem runBody_pulled_ok (args : Args) (env : Env) :
    (runBody args env).pulled_ok =
      (runBody args env).new_sessions.filter
        (fun s => pull_session args.dry_run (env.pullRes s)) := by
  rw [runBody_new_sessions]
  exact classifySessions_fst _ _

theorem runBody_pull_failed (args : Args) (env : Env) :
    (runBody args env).pull_failed =
      (runBody args env).new_sessions.filter
        (fun s => !(pull_session args.dry_run (env.pullRes s))) := by
  rw [runBody_new_sessions]
  exact classifySessions_snd _ _

theorem runBody_delete_candidates (args : Args) (env : Env) :
    (runBody args env).delete_candidates =
      plan_delete_candidates args.no_delete args.delete_old_only
        (runBody args env).old_sessions (runBody args env).pulled_ok := rfl

theorem runBody_deleted_ok (args : Args) (env : Env) :
    (runBody args env).deleted_ok =
      (runBody args env).delete_candidates.filter
        (fun s => delete_session args.dry_run (env.rmExitZero s)) :=
  classifySessions_fst _ _

theorem runBody_delete_failed (args : Args) (env : Env) :
    (runBody args env).delete_failed =
      (runBody args env).delete_candidates.filter
        (fun s => !(delete_session args.dry_run (env.rmExitZero s))) :=
  classifySessions_snd _ _

theorem runBody_events (args : Args) (env : Env) :
    (runBody args env).events =
      Event.listRemote :: ((runBody args env).new_sessions.map Event.pull ++
        (runBody args env).delete_candidates.map Event.delete) := rfl

theorem runBody_exitCode (args : Args) (env : Env) :
    (runBody args env).exitCode =
      if !(runBody args env).pull_failed.isEmpty || !(runBody args env).delete_failed.isEmpty
      then 1 else 0 := rfl

/-! Claim theorems. -/

/-- C2: for every remote session list and local_before set, the planner
outputs satisfy newSessions ∪ oldSessions = remote and
newSessions ∩ oldSessions = ∅ (as sets of session identifiers), where
newSessions = remote − local_before and oldSessions = remote ∩
local_before. -/
theorem C2_partition (remote : List String) (local_before : Finset String) :
    (newSessions remote local_before).toFinset ∪ (oldSessions remote local_before).toFinset
        = remote.toFinset ∧
    (newSessions remote local_before).toFinset ∩ (oldSessions remote local_before).toFinset
        = ∅ := by
  constructor
  · ext s
    simp only [Finset.mem_union, List.mem_toFinset, newSessions, oldSessions,
      List.mem_filter, decide_eq_true_eq]
    tauto
  · ext s
    simp only [Finset.mem_inter, List.mem_toFinset, newSessions, oldSessions,
      List.mem_filter, decide_eq_true_eq, Finset.not_mem_empty, iff_false]
    tauto

/-- C7: with --no-delete the delete candidates are empty regardless of the
environment and of the other flags; with --delete-old-only (and deletion
enabled) the delete candidates are exactly old_sessions, whatever was
pulled. -/
theorem C7_policy_flags (args : Args) (env : Env) :
    (args.no_delete = true → (SyncScript.main args env).delete_candidates = []) ∧
    (args.no_delete = false → args.delete_old_only = true →
      (SyncScript.main args env).delete_candidates
        = (SyncScript.main args env).old_sessions) := by
  rcases main_cases args env with h | h | h | h <;> rw [h]
  · exact ⟨fun _ => rfl, fun _ _ => rfl⟩
  · exact ⟨fun _ => rfl, fun _ _ => rfl⟩
  · exact ⟨fun _ => rfl, fun _ _ => rfl⟩
  · constructor
    · intro hnd
      rw [runBody_delete_candidates]
      simp [plan_delete_candidates, hnd]
    · intro hnd hdo
      rw [runBody_delete_candidates]
      simp [plan_delete_candidates, hnd, hdo]

/-- C7 witness: under --no-delete the concrete successful run has no delete
candidates. -/
theorem C7_policy_flags_witness :
    (SyncScript.main ⟨false, true, false⟩ envHappy).delete_candidates = [] :=
  (C7_policy_flags ⟨false, true, false⟩ envHappy).1 rfl

/-- C8: outside dry-run mode, pull_session reports success exactly when the
adb pull exit status is zero and the expected local session directory
exists afterwards; a zero exit status without the directory is a
failure. -/
theorem C8_pull_success_semantics (r : PullRes) :
    (pull_session false r = true ↔ r.returncode = 0 ∧ r.localSessionDirCreated = true) ∧
    (r.returncode = 0 → r.localSessionDirCreated = false → pull_session false r = false) := by
  unfold pull_session
  by_cases h : r.returncode = 0 <;> cases hc : r.localSessionDirCreated <;> simp [h, hc]

/-- C1: under the default policy every delete candidate is an old session
or a successfully pulled one, and a session whose pull failed is never a
delete candidate, for every environment and per-session pull outcome
assignment. -/
theorem C1_default_deletion_safety (args : Args) (env : Env)
    (hnd : args.no_delete = false) (hdo : args.delete_old_only = false) :
    (∀ s ∈ (SyncScript.main args env).delete_candidates,
        s ∈ (SyncScript.main args env).old_sessions ∨
          s ∈ (SyncScript.main args env).pulled_ok) ∧
    (∀ s ∈ (SyncScript.main args env).pull_failed,
        s ∉ (SyncScript.main args env).delete_candidates) := by
  rcases main_cases args env with h | h | h | h <;> rw [h]
  · exact ⟨fun s hs => absurd hs (List.not_mem_nil s),
      fun s hs => absurd hs (List.not_mem_nil s)⟩
  · exact ⟨fun s hs => absurd hs (List.not_mem_nil s),
      fun s hs => absurd hs (List.not_mem_nil s)⟩
  · exact ⟨fun s hs => absurd hs (List.not_mem_nil s),
      fun s hs => absurd hs (List.not_mem_nil s)⟩
  · constructor
    · intro s hs
      rw [runBody_delete_candidates] at hs
      simp only [plan_delete_candidates, hnd, hdo, Bool.false_eq_true, if_false] at hs
      rw [mem_dictFromKeys, List.mem_append] at hs
      exact hs
    · intro s hs hmem
      rw [runBody_pull_failed, List.mem_filter] at hs
      obtain ⟨hsnew, hfail⟩ := hs
      rw [runBody_delete_candidates] at hmem
      simp only [plan_delete_candidates, hnd, hdo, Bool.false_eq_true, if_false] at hmem
      rw [mem_dictFromKeys, List.mem_append] at hmem
      rcases hmem with hold | hok
      · rw [runBody_old_sessions, oldSessions, List.mem_filter, decide_eq_true_eq] at hold
        rw [runBody_new_sessions, newSessions, List.mem_filter, decide_eq_true_eq] at hsnew
        exact hsnew.2 hold.2
      · rw [runBody_pulled_ok, List.mem_filter] at hok
        rw [hok.2] at hfail
        simp at hfail

/-- C1 witness: the deletion-safety conjunction instantiated at a concrete
default-policy run. -/
theorem C1_default_deletion_safety_witness :
    "20240101_100000" ∈ (SyncScript.main ⟨false, false, false⟩ envHappy).old_sessions ∨
    "20240101_100000" ∈ (SyncScript.main ⟨false, false, false⟩ envHappy).pulled_ok :=
  (C1_default_deletion_safety ⟨false, false, false⟩ envHappy rfl rfl).1
    "20240101_100000" (by decide)

/-- C9: in dry-run mode every pull and delete reports success, so a run
whose preflight checks pass has empty pull_failed and delete_failed and
exits 0. -/
theorem C9_dry_run_success (args : Args) (env : Env) (serial : String)
    (hd : args.dry_run = true)
    (h1 : env.adbOnPath = true)
    (h2 : ensure_device_connected env.devicesCmdOk env.devicesLines = Except.ok serial)
    (h3 : env.lsCmdOk = true) :
    (SyncScript.main args env).pull_failed = [] ∧
    (SyncScript.main args env).delete_failed = [] ∧
    (SyncScript.main args env).exitCode = 0 := by
  cases h4 : (list_device_sessions env.lsLines).isEmpty with
  | true =>
    rw [main_emptyListing args env serial h1 h2 h3 h4]
    exact ⟨rfl, rfl, rfl⟩
  | false =>
    rw [main_runBody args env serial h1 h2 h3 h4]
    have hpf : (fun s => !(pull_session args.dry_run (env.pullRes s))) = fun _ => false := by
      funext s
      rw [hd]
      rfl
    have hdf : (fun s => !(delete_session args.dry_run (env.rmExitZero s))) = fun _ => false := by
      funext s
      rw [hd]
      rfl
    have hp : (runBody args env).pull_failed = [] := by
      rw [runBody_pull_failed, hpf]
      simp
    have hdel : (runBody args env).delete_failed = [] := by
      rw [runBody_delete_failed, hdf]
      simp
    refine ⟨hp, hdel, ?_⟩
    rw [runBody_exitCode, hp, hdel]
    rfl

/-- C9 witness: a concrete dry run with one remote session exits 0. -/
theorem C9_dry_run_success_witness :
    (SyncScript.main ⟨true, false, false⟩ envHappy).exitCode = 0 :=
  (C9_dry_run_success ⟨true, false, false⟩ envHappy "X" rfl rfl rfl rfl).2.2

/-- C3 (amended): SESSION_PATTERN_fullmatch s is true exactly when s is
eight decimal digits, an underscore, then six decimal digits with nothing
else — where a digit is Python's Unicode-wide digit class (isPyDigit), not
only the ASCII digits. -/
theorem C3_amended_session_id_shape (s : String) :
    SESSION_PATTERN_fullmatch s = true ↔
      ∃ a b : List Char, s.data = a ++ '_' :: b ∧ a.length = 8 ∧ b.length = 6 ∧
        (∀ c ∈ a, isPyDigit c = true) ∧ (∀ c ∈ b, isPyDigit c = true) := by
  unfold SESSION_PATTERN_fullmatch
  constructor
  · intro h
    cases h8 : matchRepeatDigits 8 s.data with
    | none => rw [h8] at h; simp at h
    | some rest =>
      rw [h8] at h
      cases rest with
      | nil => simp at h
      | cons c rest2 =>
        dsimp only at h
        by_cases hc : c = '_'
        · subst hc
          rw [if_pos rfl] at h
          cases h6 : matchRepeatDigits 6 rest2 with
          | none => rw [h6] at h; simp at h
          | some rem =>
            rw [h6] at h
            cases rem with
            | nil =>
              obtain ⟨a, hsd, ha, had⟩ := (matchRepeatDigits_eq_some 8 s.data _).mp h8
              obtain ⟨b, hrd, hb, hbd⟩ := (matchRepeatDigits_eq_some 6 rest2 _).mp h6
              rw [List.append_nil] at hrd
              subst hrd
              exact ⟨a, rest2, hsd, ha, hb, had, hbd⟩
            | cons x xs => simp at h
        · rw [if_neg hc] at h
          simp at h
  · rintro ⟨a, b, hsd, ha, hb, had, hbd⟩
    have h8 : matchRepeatDigits 8 s.data = some ('_' :: b) :=
      (matchRepeatDigits_eq_some 8 s.data _).mpr ⟨a, hsd, ha, had⟩
    have h6 : matchRepeatDigits 6 b = some [] :=
      (matchRepeatDigits_eq_some 6 b _).mpr ⟨b, (List.append_nil b).symm, hb, hbd⟩
    simp [h8, h6]

/-- C3 counterexample: a string of Arabic-Indic digits (every code point
above 127) passes SESSION_PATTERN_fullmatch, so non-ASCII strings are not
all rejected. -/
theorem C3_counterexample_unicode_digits :
    SESSION_PATTERN_fullmatch arabicSession = true ∧
    arabicSession.data.all (fun c => decide (127 < c.toNat) || decide (c = '_')) = true := by
  constructor
  · decide
  · decide

/-- C5: precondition failures (adb missing, device error, listing command
failure) exit 1; a preflight-passing run with an empty remote listing
exits 0 having attempted no pull or delete; a preflight-passing run with a
non-empty listing exits 1 exactly when some pull or delete failed and 0
exactly when both failure lists are empty. -/
theorem C5_exit_status (args : Args) (env : Env) :
    (env.adbOnPath = false → (SyncScript.main args env).exitCode = 1) ∧
    (∀ m, ensure_device_connected env.devicesCmdOk env.devicesLines = Except.error m →
      (SyncScript.main args env).exitCode = 1) ∧
    (∀ serial, env.adbOnPath = true →
      ensure_device_connected env.devicesCmdOk env.devicesLines = Except.ok serial →
      env.lsCmdOk = false →
      (SyncScript.main args env).exitCode = 1) ∧
    (∀ serial, env.adbOnPath = true →
      ensure_device_connected env.devicesCmdOk env.devicesLines = Except.ok serial →
      env.lsCmdOk = true → (list_device_sessions env.lsLines).isEmpty = true →
      (SyncScript.main args env).exitCode = 0 ∧
        (SyncScript.main args env).events = [Event.listRemote]) ∧
    (∀ serial, env.adbOnPath = true →
      ensure_device_connected env.devicesCmdOk env.devicesLines = Except.ok serial →
      env.lsCmdOk = true → (list_device_sessions env.lsLines).isEmpty = false →
      (((SyncScript.main args env).exitCode = 1 ↔
        ((SyncScript.main args env).pull_failed ≠ [] ∨
          (SyncScript.main args env).delete_failed ≠ [])) ∧
       ((SyncScript.main args env).exitCode = 0 ↔
        ((SyncScript.main args env).pull_failed = [] ∧
          (SyncScript.main args env).delete_failed = [])))) := by
  refine ⟨?_, ?_, ?_, ?_, ?_⟩
  · intro h
    rw [main_noAdb args env h]
    rfl
  · intro m h
    rw [main_deviceError args env m h]
    rfl
  · intro serial h1 h2 h3
    rw [main_lsError args env serial h1 h2 h3]
    rfl
  · intro serial h1 h2 h3 h4
    rw [main_emptyListing args env serial h1 h2 h3 h4]
    exact ⟨rfl, rfl⟩
  · intro serial h1 h2 h3 h4
    rw [main_runBody args env serial h1 h2 h3 h4, runBody_exitCode]
    cases (runBody args env).pull_failed with
    | nil =>
      cases (runBody args env).delete_failed with
      | nil => simp
      | cons y ys => simp
    | cons x xs =>
      cases (runBody args env).delete_failed with
      | nil => simp
      | cons y ys => simp

/-- C5 witness: a run with adb missing from PATH exits 1. -/
theorem C5_exit_status_witness :
    (SyncScript.main ⟨false, false, false⟩ envNoAdb).exitCode = 1 :=
  (C5_exit_status ⟨false, false, false⟩ envNoAdb).1 rfl

/-- C6 (amended): the preflight fails with the no-device message when no
device is connected, with the distinct unauthorized message when devices
are present but all unauthorized, succeeds with the FIRST connected serial
when at least one device is connected (it does not require exactly one),
and any preflight failure ends the run with exit 1 and no listing, pull,
or delete attempted. -/
theorem C6_amended_device_preflight (outputLines : List String) (args : Args) (env : Env) :
    ((parseDeviceLines outputLines).1 = [] → (parseDeviceLines outputLines).2 ≠ [] →
      ensure_device_connected true outputLines = Except.error
        "Quest is connected but unauthorized. Put on the headset and allow USB debugging.") ∧
    ((parseDeviceLines outputLines).1 = [] → (parseDeviceLines outputLines).2 = [] →
      ensure_device_connected true outputLines = Except.error "No ADB device detected.") ∧
    (("Quest is connected but unauthorized. Put on the headset and allow USB debugging." : String)
        ≠ "No ADB device detected.") ∧
    (∀ c rest, (parseDeviceLines outputLines).1 = c :: rest →
      ensure_device_connected true outputLines = Except.ok c) ∧
    (∀ m, ensure_device_connected env.devicesCmdOk env.devicesLines = Except.error m →
      (SyncScript.main args env).exitCode = 1 ∧ (SyncScript.main args env).events = []) := by
  refine ⟨?_, ?_, ?_, ?_, ?_⟩
  · intro h1 h2
    cases hp2 : (parseDeviceLines outputLines).2 with
    | nil => exact absurd hp2 h2
    | cons y ys => simp [ensure_device_connected, h1, hp2]
  · intro h1 h2
    simp [ensure_device_connected, h1, h2]
  · decide
  · intro c rest hp1
    simp [ensure_device_connected, hp1]
  · intro m h
    rw [main_deviceError args env m h]
    exact ⟨rfl, rfl⟩

/-- C6 counterexample: with two connected authorized devices the preflight
succeeds with the first serial instead of verifying that exactly one
device is connected. -/
theorem C6_counterexample_two_devices :
    (parseDeviceLines ["List of devices attached", "serialA\tdevice", "serialB\tdevice"]).1
        = ["serialA", "serialB"] ∧
    ensure_device_connected true
        ["List of devices attached", "serialA\tdevice", "serialB\tdevice"]
        = Except.ok "serialA" :=
  ⟨by decide, rfl⟩

/-- C6 witness: one unauthorized device and no connected one yields the
dedicated unauthorized message. -/
theorem C6_amended_device_preflight_witness :
    ensure_device_connected true ["List of devices attached", "Y\tunauthorized"] = Except.error
      "Quest is connected but unauthorized. Put on the headset and allow USB debugging." :=
  (C6_amended_device_preflight ["List of devices attached", "Y\tunauthorized"]
    ⟨false, false, false⟩ envHappy).1 (by decide) (by decide)

/-- C4 (amended): in every preflight-passing run all pulls precede all
deletes with no interleaving; pulls are issued in ascending identifier
order; under --delete-old-only the delete sequence is ascending; under the
default policy the delete sequence is an ascending old_sessions segment
followed by an ascending pulled_ok segment (first-seen deduplicated), but
is not necessarily ascending across the segment boundary. -/
theorem C4_amended_ordering (args : Args) (env : Env) (serial : String)
    (h1 : env.adbOnPath = true)
    (h2 : ensure_device_connected env.devicesCmdOk env.devicesLines = Except.ok serial)
    (h3 : env.lsCmdOk = true) :
    ((SyncScript.main args env).events =
      Event.listRemote :: ((SyncScript.main args env).new_sessions.map Event.pull ++
        (SyncScript.main args env).delete_candidates.map Event.delete)) ∧
    (SyncScript.main args env).new_sessions.Sorted sLe ∧
    (SyncScript.main args env).old_sessions.Sorted sLe ∧
    (SyncScript.main args env).pulled_ok.Sorted sLe ∧
    (args.no_delete = false → args.delete_old_only = true →
      (SyncScript.main args env).delete_candidates.Sorted sLe) ∧
    (args.no_delete = false → args.delete_old_only = false →
      ∃ l1 l2, (SyncScript.main args env).delete_candidates = l1 ++ l2 ∧
        List.Sublist l1 (SyncScript.main args env).old_sessions ∧
        List.Sublist l2 (SyncScript.main args env).pulled_ok ∧
        l1.Sorted sLe ∧ l2.Sorted sLe) := by
  haveI : IsTotal String sLe := ⟨sLe_total_thm⟩
  haveI : IsTrans String sLe := ⟨sLe_trans_thm⟩
  cases h4 : (list_device_sessions env.lsLines).isEmpty with
  | true =>
    rw [main_emptyListing args env serial h1 h2 h3 h4]
    exact ⟨rfl, List.sorted_nil, List.sorted_nil, List.sorted_nil,
      fun _ _ => List.sorted_nil,
      fun _ _ => ⟨[], [], rfl, List.nil_sublist _, List.nil_sublist _,
        List.sorted_nil, List.sorted_nil⟩⟩
  | false =>
    rw [main_runBody args env serial h1 h2 h3 h4]
    have hdev : (list_device_sessions env.lsLines).Sorted sLe :=
      List.sorted_insertionSort sLe _
    have hnew : (runBody args env).new_sessions.Sorted sLe := by
      rw [runBody_new_sessions, newSessions]
      exact List.Pairwise.filter _ hdev
    have hold : (runBody args env).old_sessions.Sorted sLe := by
      rw [runBody_old_sessions, oldSessions]
      exact List.Pairwise.filter _ hdev
    have hok : (runBody args env).pulled_ok.Sorted sLe := by
      rw [runBody_pulled_ok]
      exact List.Pairwise.filter _ hnew
    refine ⟨runBody_events args env, hnew, hold, hok, ?_, ?_⟩
    · intro hnd hdo
      rw [runBody_delete_candidates]
      simp only [plan_delete_candidates, hnd, hdo, Bool.false_eq_true, if_false, if_true]
      exact hold
    · intro hnd hdo
      rw [runBody_delete_candidates]
      simp only [plan_delete_candidates, hnd, hdo, Bool.false_eq_true, if_false]
      rw [dictFromKeys, dictFromKeysAux_append]
      refine ⟨_, _, rfl, sublist_dictFromKeysAux _ _, sublist_dictFromKeysAux _ _,
        hold.sublist (sublist_dictFromKeysAux _ _), hok.sublist (sublist_dictFromKeysAux _ _)⟩

/-- C4 counterexample: a concrete default-policy run whose delete
operations are issued in descending identifier order (the old session is
deleted before the freshly pulled earlier one). -/
theorem C4_counterexample_delete_order :
    (SyncScript.main ⟨false, false, false⟩ envMixed).delete_candidates
        = ["20240102_000000", "20240101_000000"] ∧
    (SyncScript.main ⟨false, false, false⟩ envMixed).events
        = [Event.listRemote, Event.pull "20240101_000000",
           Event.delete "20240102_000000", Event.delete "20240101_000000"] ∧
    ¬ (SyncScript.main ⟨false, false, false⟩ envMixed).delete_candidates.Sorted sLe := by
  refine ⟨by decide, by decide, ?_⟩
  intro hs
  have := List.rel_of_sorted_cons hs "20240101_000000" (by decide)
  revert this
  decide

/-- C4 witness: the pull list of the concrete successful run is sorted
ascending. -/
theorem C4_amended_ordering_witness :
    (SyncScript.main ⟨false, false, false⟩ envHappy).new_sessions.Sorted sLe :=
  (C4_amended_ordering ⟨false, false, false⟩ envHappy "X" rfl rfl rfl).2.1

/-- C10: a valid session name occurring on k ≥ 2 listing lines occurs k
times in the device-session list and (when not already local) k times in
new_sessions, triggers one pull invocation per occurrence, and still
occurs at most once among the default-policy delete candidates. -/
theorem C10_duplicate_listing (args : Args) (env : Env) (serial : String)
    (s : String) (k : Nat)
    (h1 : env.adbOnPath = true)
    (h2 : ensure_device_connected env.devicesCmdOk env.devicesLines = Except.ok serial)
    (h3 : env.lsCmdOk = true)
    (hv : SESSION_PATTERN_fullmatch s = true)
    (hk : (env.lsLines.map normalizeLine).count s = k)
    (h2k : 2 ≤ k)
    (hloc : s ∉ env.localBefore)
    (hnd : args.no_delete = false) (hdo : args.delete_old_only = false) :
    (list_device_sessions env.lsLines).count s = k ∧
    (SyncScript.main args env).new_sessions.count s = k ∧
    (SyncScript.main args env).events.count (Event.pull s) =
      (SyncScript.main args env).new_sessions.count s ∧
    (SyncScript.main args env).delete_candidates.count s ≤ 1 := by
  have hdev : (list_device_sessions env.lsLines).count s = k := by
    rw [list_device_sessions, (List.perm_insertionSort sLe _).count_eq,
      List.count_filter hv, hk]
  have hmem : s ∈ list_device_sessions env.lsLines := by
    rw [← List.count_pos_iff, hdev]
    omega
  have h4 : (list_device_sessions env.lsLines).isEmpty = false := by
    cases hl : list_device_sessions env.lsLines with
    | nil => rw [hl] at hmem; exact absurd hmem (List.not_mem_nil s)
    | cons x xs => rfl
  rw [main_runBody args env serial h1 h2 h3 h4]
  have hnew : (runBody args env).new_sessions.count s = k := by
    rw [runBody_new_sessions, newSessions, List.count_filter]
    exact hdev
    simp [hloc]
  refine ⟨hdev, hnew, ?_, ?_⟩
  · rw [runBody_events]
    have hinj : Function.Injective Event.pull := fun a b h => Event.pull.inj h
    have hzero :
        ((runBody args env).delete_candidates.map Event.delete).count (Event.pull s) = 0 := by
      rw [List.count_eq_zero]
      intro hm
      rw [List.mem_map] at hm
      obtain ⟨x, _, hx⟩ := hm
      exact absurd hx (by simp)
    rw [List.count_cons_of_ne (by simp), List.count_append, hzero,
      List.count_map_of_injective _ _ hinj, Nat.add_zero]
  · rw [runBody_delete_candidates]
    simp only [plan_delete_candidates, hnd, hdo, Bool.false_eq_true, if_false]
    exact List.nodup_iff_count_le_one.mp (nodup_dictFromKeys _) s

/-- C10 witness: in a concrete run with a duplicated listing line the
delete candidates hold the session only once. -/
theorem C10_duplicate_listing_witness :
    (SyncScript.main ⟨false, false, false⟩ envDup).delete_candidates.count
      "20240101_100000" ≤ 1 :=
  (C10_duplicate_listing ⟨false, false, false⟩ envDup "X" "20240101_100000" 2
    rfl rfl rfl (by decide) (by decide) (by decide) (by decide) rfl rfl).2.2.2
